import Mathlib

/-
  Verification of the WAL (write-ahead log) core of py-wal-pattern.

  The Python sources are shallowly embedded:
  * `domain/models.py`        : OperationType, CompressionType, CompressionConfig
  * `service/wal/log_entry.py`: LogEntry / CompressedLogEntry codec
  * `service/wal/compression.py`: CompressionManager
  * `service/wal/wal.py`      : WAL (segments, append, rotate, read_all_entries,
                                _init_from_disk, delete_old_segments)
  * `service/wal/storage.py`  : KeyValueStore (put, delete, checkpoint, recovery)

  Modelling conventions:
  * Python ints are Nat (all quantities in the code are non-negative).
  * Python floats (time.time timestamps) are modelled as Nat: the code never
    computes with a timestamp, it only embeds its str() into the checksum input
    and round-trips it through JSON (which is exact), so any type with an
    injective rendering to String is a faithful model.
  * bytes are modelled at the structural level: a serialized record is its
    compression-envelope byte together with the JSON object it carries.  JSON
    encoding of an object and zlib compression are both lossless and are
    modelled by the carried object itself; the fields of the JSON object are
    modelled by the EntryDict structure below.
  * Python exceptions (KeyError, ValueError) are modelled with Except PyError.
  * os.listdir order is irrelevant because the code always sorts; Python's
    sorted() on strings (code-point lexicographic) is modelled by an insertion
    sort over the same character order.
-/

set_option maxRecDepth 1000000

namespace PyWal

/-- models.py OperationType: PUT = 1, DELETE = 2. -/
inductive OperationType where
  | PUT
  | DELETE
deriving DecidableEq

/-- The integer value of the enum member (OperationType.PUT.value = 1, ...). -/
def OperationType.value : OperationType → Nat
  | .PUT => 1
  | .DELETE => 2

/-- The enum constructor OperationType(n): valid for 1 and 2, ValueError otherwise. -/
def OperationType.ofValue (n : Nat) : Option OperationType :=
  if n = 1 then some .PUT else if n = 2 then some .DELETE else none

/-- models.py CompressionType: NONE = 0, ZLIB = 1. -/
inductive CompressionType where
  | NONE
  | ZLIB
deriving DecidableEq

/-- The integer value of the enum member. -/
def CompressionType.value : CompressionType → Nat
  | .NONE => 0
  | .ZLIB => 1

/-- The enum constructor CompressionType(n): valid for 0 and 1, ValueError otherwise. -/
def CompressionType.ofValue (n : Nat) : Option CompressionType :=
  if n = 0 then some .NONE else if n = 1 then some .ZLIB else none

/-- models.py CompressionConfig dataclass. -/
structure CompressionConfig where
  type : CompressionType
  level : Nat := 6
deriving DecidableEq

/-- Python exceptions raised by the embedded code paths. -/
inductive PyError where
  | keyError (key : String)
  | valueError (msg : String)
  | indexError (msg : String)
deriving DecidableEq

/-- One round of the CRC-32 bit loop (reflected IEEE polynomial 0xEDB88320). -/
def crc32Round (c : Nat) : Nat :=
  if c % 2 = 1 then Nat.xor (c / 2) 0xEDB88320 else c / 2

/-- n iterations of the CRC-32 bit loop. -/
def crc32Rounds : Nat → Nat → Nat
  | 0, c => c
  | n + 1, c => crc32Rounds n (crc32Round c)

/-- Absorb one byte into the CRC-32 state. -/
def crc32Byte (c b : Nat) : Nat := crc32Rounds 8 (Nat.xor c (b % 256))

/-- zlib.crc32 over a byte list (initial value 0, i.e. state 0xFFFFFFFF in/out). -/
def crc32 (bytes : List Nat) : Nat :=
  Nat.xor (bytes.foldl crc32Byte 0xFFFFFFFF) 0xFFFFFFFF

/-- UTF-8 bytes of a string; the keys and rendered numbers fed to the checksum
are ASCII, where UTF-8 bytes coincide with the code points. -/
def strBytes (s : String) : List Nat := s.data.map Char.toNat

/-- Python str() of an entry value: None renders as "None", a str renders as itself. -/
def pyStrOfValue : Option String → String
  | none => "None"
  | some s => s

/-- The f-string fed to zlib.crc32 in LogEntry.calculate_checksum. -/
def checksumString (seq : Nat) (op : OperationType) (key : String)
    (value : Option String) (ts : Nat) : String :=
  toString seq ++ toString op.value ++ key ++ pyStrOfValue value ++ toString ts

/-- LogEntry.calculate_checksum: CRC-32 of the UTF-8 f-string of the fields. -/
def calculate_checksum (seq : Nat) (op : OperationType) (key : String)
    (value : Option String) (ts : Nat) : Nat :=
  crc32 (strBytes (checksumString seq op key value ts))

/-- log_entry.py LogEntry: the in-memory record.  `value` is Option String
(Python passes None for DELETE records). -/
structure LogEntry where
  seq_num : Nat
  op_type : OperationType
  key : String
  value : Option String
  timestamp : Nat
  checksum : Nat
  format_version : Nat
deriving DecidableEq

/-- LogEntry.__init__(seq_num, op_type, key, value): stamps the entry with the
current time (a parameter here) and the checksum computed from the fields. -/
def mkLogEntry (seq : Nat) (op : OperationType) (key : String)
    (value : Option String) (ts : Nat) : LogEntry :=
  { seq_num := seq, op_type := op, key := key, value := value, timestamp := ts,
    checksum := calculate_checksum seq op key value ts, format_version := 1 }

/-- The JSON object written by to_dict / read by from_dict.  A field that may be
absent from an incoming object is an Option; `value` holds the result of
data.get("value"), so an absent field and an explicit null coincide as none,
exactly as in the Python code. -/
structure EntryDict where
  seq_num : Option Nat := none
  op_type : Option Nat := none
  key : Option String := none
  value : Option String := none
  timestamp : Option Nat := none
  checksum : Option Nat := none
  format_version : Option Nat := none
  compression_type : Option Nat := none
deriving DecidableEq

/-- LogEntry.to_dict: every field is present in the produced object. -/
def LogEntry.to_dict (e : LogEntry) : EntryDict :=
  { seq_num := some e.seq_num, op_type := some e.op_type.value, key := some e.key,
    value := e.value, timestamp := some e.timestamp, checksum := some e.checksum,
    format_version := some e.format_version }

/-- LogEntry.from_dict: data["seq_num"], data["op_type"], data["key"] and
data["timestamp"] raise KeyError when absent; OperationType(data["op_type"])
raises ValueError on an unknown value; data.get("value") defaults to None;
data.get("checksum", entry.calculate_checksum()) defaults to the recomputed
checksum; data.get("format_version", 1) defaults to 1 and is stored without
any validity check. -/
def LogEntry.from_dict (d : EntryDict) : Except PyError LogEntry := do
  let fv := d.format_version.getD 1
  let sq ← match d.seq_num with
    | some v => Except.ok v
    | none => Except.error (PyError.keyError "seq_num")
  let opv ← match d.op_type with
    | some v => Except.ok v
    | none => Except.error (PyError.keyError "op_type")
  let op ← match OperationType.ofValue opv with
    | some o => Except.ok o
    | none => Except.error (PyError.valueError "op_type")
  let k ← match d.key with
    | some v => Except.ok v
    | none => Except.error (PyError.keyError "key")
  let v := d.value
  let ts ← match d.timestamp with
    | some t => Except.ok t
    | none => Except.error (PyError.keyError "timestamp")
  let cs := d.checksum.getD (calculate_checksum sq op k v ts)
  Except.ok { seq_num := sq, op_type := op, key := k, value := v, timestamp := ts,
              checksum := cs, format_version := fv }

/-- The on-disk payload of one framed record: the compression-envelope byte
followed by the (possibly zlib-compressed) JSON body.  JSON and zlib are
lossless, so the body is modelled by the object it decodes to. -/
structure SerializedEntry where
  ct_byte : Nat
  payload : EntryDict
deriving DecidableEq

/-- CompressionManager.compress: ZLIB config compresses (losslessly) and tags
ZLIB, otherwise the data passes through tagged NONE. -/
def CompressionManager.compress (cfg : CompressionConfig) (d : EntryDict) :
    EntryDict × CompressionType :=
  if cfg.type = CompressionType.ZLIB then (d, CompressionType.ZLIB)
  else (d, CompressionType.NONE)

/-- CompressionManager.decompress: inverts compress; at the structural level the
carried object is returned unchanged. -/
def CompressionManager.decompress (d : EntryDict) (_ct : CompressionType) : EntryDict := d

/-- CompressedLogEntry.to_dict: the superclass dict plus the entry's current
compression_type attribute (NONE right after construction). -/
def CompressedLogEntry.to_dict (e : LogEntry) (current_ct : CompressionType) : EntryDict :=
  { LogEntry.to_dict e with compression_type := some current_ct.value }

/-- CompressedLogEntry.serialize: json.dumps(self.to_dict()) is compressed per
the config and prefixed with the one-byte compression tag.  `current_ct` is the
entry's compression_type attribute at serialization time, which is NONE for a
freshly constructed entry. -/
def CompressedLogEntry.serialize (e : LogEntry) (cfg : CompressionConfig)
    (current_ct : CompressionType) : SerializedEntry :=
  let d := CompressedLogEntry.to_dict e current_ct
  let p := CompressionManager.compress cfg d
  { ct_byte := p.2.value, payload := p.1 }

/-- CompressedLogEntry.from_dict: pops compression_type from the dict and
defers to LogEntry.from_dict. -/
def CompressedLogEntry.from_dict (d : EntryDict) : Except PyError LogEntry :=
  LogEntry.from_dict { d with compression_type := none }

/-- CompressedLogEntry.deserialize: reads the envelope byte (ValueError if it is
not a CompressionType), decompresses, rebuilds the entry from the dict and
verifies the stored checksum against the recomputed one. -/
def CompressedLogEntry.deserialize (s : SerializedEntry) : Except PyError LogEntry := do
  let ct ← match CompressionType.ofValue s.ct_byte with
    | some c => Except.ok c
    | none => Except.error (PyError.valueError "compression_type")
  let body := CompressionManager.decompress s.payload ct
  let e ← CompressedLogEntry.from_dict body
  if e.checksum = calculate_checksum e.seq_num e.op_type e.key e.value e.timestamp then
    Except.ok e
  else
    Except.error (PyError.valueError "Checksum verification failed")

/-- Equality of embedded Python results is decidable (needed to evaluate the
model on concrete inputs). -/
instance {ε α : Type} [DecidableEq ε] [DecidableEq α] : DecidableEq (Except ε α) := fun a b =>
  match a, b with
  | .ok x, .ok y => decidable_of_iff (x = y) (by simp)
  | .error x, .error y => decidable_of_iff (x = y) (by simp)
  | .ok _, .error _ => isFalse (by simp)
  | .error _, .ok _ => isFalse (by simp)

/-- The default compression config of a WAL created without one
(CompressionConfig(CompressionType.ZLIB)), as the KeyValueStore does. -/
def defaultConfig : CompressionConfig := { type := CompressionType.ZLIB }

/-- A byte string handed to CompressedLogEntry.deserialize: the empty byte
string (as f.read(0) produces), or a non-empty record made of the envelope
byte followed by the body. -/
inductive RecordBytes where
  | empty
  | recBytes (s : SerializedEntry)
deriving DecidableEq

/-- CompressedLogEntry.deserialize on an arbitrary byte string: on the empty
byte string, data[0] raises IndexError before anything else runs; on a
non-empty one it proceeds as CompressedLogEntry.deserialize above. -/
def deserializeBytes : RecordBytes → Except PyError LogEntry
  | RecordBytes.empty => Except.error (PyError.indexError "index out of range")
  | RecordBytes.recBytes s => CompressedLogEntry.deserialize s

/-- Python int.from_bytes(bytes, "big"). -/
def intFromBytesBE (bytes : List Nat) : Nat :=
  bytes.foldl (fun n b => n * 256 + b % 256) 0

/-- What a segment file holds after its complete length-prefixed frames.
clean: the file ends exactly after a frame.  tornLen bytes: the file was cut
inside the 4-byte length prefix of the next record, leaving the 1 to 3 bytes
`bytes`; record lengths are far below 2^24, so the leading prefix bytes are
zeros and a cut that keeps only them leaves bytes whose big-endian value is 0
(a 4-byte all-zero prefix at end of file behaves identically and is also
representable here).  tornBody present extra: a full 4-byte prefix announced
present + extra + 1 bytes but only `present` body bytes follow on disk (the
+ 1 keeps the announced length strictly larger than what is present, as a cut
inside the body requires). -/
inductive SegTail where
  | clean
  | tornLen (bytes : List Nat)
  | tornBody (present extra : Nat)
deriving DecidableEq

/-- One segment file `name`.log of the log directory: its complete
length-prefixed records in write order, then its tail. -/
structure Segment where
  name : Nat
  recs : List SerializedEntry
  tail : SegTail
deriving DecidableEq

/-- The filename of a segment: f-string of the sequence number plus ".log". -/
def filename (n : Nat) : String := toString n ++ ".log"

/-- Python string < (code-point lexicographic) on the character lists. -/
def charLt : List Char → List Char → Bool
  | _, [] => false
  | [], _ :: _ => true
  | a :: as, b :: bs => if a = b then charLt as bs else decide (a < b)

/-- Python string < on strings. -/
def pyStrLt (a b : String) : Bool := charLt a.data b.data

/-- Python string <= on strings (total order: a <= b iff not b < a). -/
def pyStrLe (a b : String) : Bool := !(pyStrLt b a)

/-- Insert a string into a lexicographically ascending list. -/
def insertStr (s : String) : List String → List String
  | [] => [s]
  | t :: ts => if pyStrLe s t then s :: t :: ts else t :: insertStr s ts

/-- Python sorted() on a list of strings: ascending code-point lexicographic. -/
def pysortStr : List String → List String
  | [] => []
  | s :: ss => insertStr s (pysortStr ss)

/-- Insert a segment into a list ascending by filename. -/
def insertSeg (s : Segment) : List Segment → List Segment
  | [] => [s]
  | t :: ts => if pyStrLe (filename s.name) (filename t.name) then s :: t :: ts
               else t :: insertSeg s ts

/-- Python sorted() over segment files, keyed by the FILENAME STRING — this is
how wal.py orders segments both in read_all_entries and in _init_from_disk. -/
def pysortSegs : List Segment → List Segment
  | [] => []
  | s :: ss => insertSeg s (pysortSegs ss)

/-- Deserialize a list of payloads in order; the first failing record aborts
the whole read with its exception, as an uncaught Python exception would. -/
def decodeList : List SerializedEntry → Except PyError (List LogEntry)
  | [] => Except.ok []
  | r :: rs => do
      let e ← CompressedLogEntry.deserialize r
      let es ← decodeList rs
      Except.ok (e :: es)

/-- What the while-loop of read_all_entries does when it reaches the tail of
one file.  Clean end: f.read(4) returns the empty byte string and the loop
breaks.  Leftover length-prefix bytes: f.read(4) returns them (non-empty, so
no break), int.from_bytes parses their value; when the value is non-zero,
f.read(value) at end of file returns the empty byte string, whose length
differs from the value, and the loop breaks silently; when the value is 0
(leftover zero bytes), f.read(0) returns the empty byte string which PASSES
the length check, and the code calls deserialize on it — IndexError.  (Were
that deserialize ever to succeed, the loop would continue and break at the
next read; it never succeeds, so nothing is appended past the tail.)  Torn
body: f.read(4) returned a full prefix but f.read(length) returns fewer bytes
than announced, and the loop breaks silently. -/
def readTail : SegTail → Except PyError Unit
  | SegTail.clean => Except.ok ()
  | SegTail.tornLen bytes =>
      if bytes = [] then Except.ok ()
      else if intFromBytesBE bytes = 0 then
        match deserializeBytes RecordBytes.empty with
        | Except.ok _ => Except.ok ()
        | Except.error err => Except.error err
      else Except.ok ()
  | SegTail.tornBody _ _ => Except.ok ()

/-- The while-loop of read_all_entries over one segment file: deserialize the
complete records in order (a failure propagates), then handle the tail. -/
def readSegmentFile (s : Segment) : Except PyError (List LogEntry) := do
  let es ← decodeList s.recs
  let _ ← readTail s.tail
  Except.ok es

/-- The for-loop of read_all_entries over the sorted file list, concatenating
each file's entries; an exception anywhere abandons the whole read. -/
def readFiles : List Segment → Except PyError (List LogEntry)
  | [] => Except.ok []
  | s :: rest => do
      let es ← readSegmentFile s
      let more ← readFiles rest
      Except.ok (es ++ more)

/-- WAL.read_all_entries: sort the segment files by filename string, then read
every file in that order. -/
def read_all_entries (segs : List Segment) : Except PyError (List LogEntry) :=
  readFiles (pysortSegs segs)

/-- The in-memory state of a WAL object: the directory contents (in file
creation order), the sequence counter, and the name of the open segment file. -/
structure WALState where
  segments : List Segment
  seq_num : Nat
  current : Nat
deriving DecidableEq

/-- Append a frame to the segment file with the given name.  A write to a file
that is no longer in the directory (it was os.remove'd while the handle stayed
open) changes no directory content. -/
def writeToSegment (segs : List Segment) (name : Nat) (r : SerializedEntry) : List Segment :=
  segs.map (fun s => if s.name = name then { s with recs := s.recs ++ [r] } else s)

/-- WAL._open_current_file: open(`seq`.log, "ab+") creates the file when it is
absent and appends to it when it exists. -/
def open_current_file (segs : List Segment) (n : Nat) : List Segment :=
  if segs.any (fun s => s.name = n) then segs
  else segs ++ [{ name := n, recs := [], tail := SegTail.clean }]

/-- WAL.append followed (when `rot` holds) by WAL._rotate_log: increment the
sequence counter, construct the entry (with the wall-clock time `ts`),
serialize it with the WAL's compression config, write the frame; rotation
closes the file, increments the counter again and opens `seq`.log.  Whether
the file position exceeded segment_size after the write is the boolean `rot`
(the on-disk byte count is not modelled). -/
def wal_append (w : WALState) (op : OperationType) (key : String)
    (value : Option String) (ts : Nat) (rot : Bool) : WALState :=
  let seq := w.seq_num + 1
  let e := mkLogEntry seq op key value ts
  let ser := CompressedLogEntry.serialize e defaultConfig CompressionType.NONE
  let segs := writeToSegment w.segments w.current ser
  if rot then
    { segments := open_current_file segs (seq + 1), seq_num := seq + 1, current := seq + 1 }
  else
    { segments := segs, seq_num := seq, current := w.current }

/-- A WAL opened on a fresh (empty) directory: seq_num 0, open file 0.log. -/
def walInit : WALState :=
  { segments := [{ name := 0, recs := [], tail := SegTail.clean }], seq_num := 0, current := 0 }

/-- Python f.endswith(t), computed on the character lists. -/
def strEndsWith (s t : String) : Bool :=
  decide (s.data.reverse.take t.data.length = t.data.reverse)

/-- Python int(s) for a decimal numeral: all characters must be digits. -/
def isDigits (s : String) : Bool := !s.isEmpty && s.data.all Char.isDigit

/-- The value of a decimal numeral. -/
def digitsToNat (s : String) : Nat := s.data.foldl (fun n c => n * 10 + (c.toNat - 48)) 0

/-- Python int(s): the parsed value, or none for the ValueError case. -/
def pyParseInt (s : String) : Option Nat :=
  if isDigits s then some (digitsToNat s) else none

/-- Python s.split(".")[0]: the characters before the first dot. -/
def splitHead (s : String) : String := String.mk (s.data.takeWhile (fun c => c ≠ '.'))

/-- WAL._init_from_disk over a directory listing: keep the *.log names, sort
them as strings, take the LAST one, and parse the integer before its first
dot; 0 on a parse failure (ValueError) or when there are no log files. -/
def init_seq_from_disk (listing : List String) : Nat :=
  let log_files := pysortStr (listing.filter (fun f => strEndsWith f ".log"))
  match log_files.getLast? with
  | none => 0
  | some last => (pyParseInt (splitHead last)).getD 0

/-- WAL.__init__ over an existing directory: _init_from_disk then
_open_current_file. -/
def wal_reopen (segs : List Segment) : WALState :=
  let seq := init_seq_from_disk (segs.map (fun s => filename s.name))
  { segments := open_current_file segs seq, seq_num := seq, current := seq }

/-- WAL._is_snapshot_fresh: the snapshot's sequence number equals the WAL's. -/
def is_snapshot_fresh (w : WALState) (snapshot_seq_num : Nat) : Bool :=
  snapshot_seq_num == w.seq_num

/-- The deletion loop of WAL.delete_old_segments: walk the sorted file list and
os.remove every file whose parsed sequence number is below the low-water mark. -/
def deleteLoop (lwm : Nat) : List Segment → List Segment → List Segment
  | dir, [] => dir
  | dir, s :: files =>
      if s.name < lwm then
        deleteLoop lwm (dir.filter (fun t => t.name ≠ s.name)) files
      else
        deleteLoop lwm dir files

/-- WAL.delete_old_segments: return unchanged unless the snapshot is fresh;
when fresh, delete every segment file whose filename number is below
low_water_mark. -/
def delete_old_segments (w : WALState) (low_water_mark snapshot_seq_num : Nat) : WALState :=
  if is_snapshot_fresh w snapshot_seq_num then
    { w with segments := deleteLoop low_water_mark w.segments (pysortSegs w.segments) }
  else w

/-- The in-memory key-value mapping of the store.  A Python dict is modelled as
an association list in insertion order with unique keys maintained by the
operations; a stored value may be None. -/
abbrev Dict : Type := List (String × Option String)

/-- Python `data[k] = v`: replace the binding in place when the key is present,
otherwise add a new binding at the end. -/
def dictSet (d : Dict) (k : String) (v : Option String) : Dict :=
  if d.any (fun p => decide (p.1 = k)) then
    d.map (fun p => if p.1 = k then (k, v) else p)
  else d ++ [(k, v)]

/-- Python `k in data`. -/
def dictHas (d : Dict) (k : String) : Bool := d.any (fun p => decide (p.1 = k))

/-- Python `del data[k]` (only reached when the key is present). -/
def dictDel (d : Dict) (k : String) : Dict := d.filter (fun p => p.1 ≠ k)

/-- Python `data.get(k)` distinguished from an absent key: some v when the key
is bound to v, none when the key is absent. -/
def dictGet : Dict → String → Option (Option String)
  | [], _ => none
  | p :: d, k => if p.1 = k then some p.2 else dictGet d k

/-- The loop body of KeyValueStore._recover_from_wal: a PUT entry sets the key;
a DELETE entry removes the key only when it is present (otherwise nothing
happens and nothing is raised). -/
def apply_entry (d : Dict) (e : LogEntry) : Dict :=
  match e.op_type with
  | OperationType.PUT => dictSet d e.key e.value
  | OperationType.DELETE => if dictHas d e.key then dictDel d e.key else d

/-- KeyValueStore._recover_from_wal applied to a given entry list: apply every
entry in order, with no comparison against any snapshot sequence number. -/
def recover_from_wal (d : Dict) (es : List LogEntry) : Dict := es.foldl apply_entry d

/-- The state of a KeyValueStore: its WAL, the snapshot.json contents (sequence
number and data) when the file exists, the in-memory data, and the low-water
mark. -/
structure StoreState where
  wal : WALState
  snapshot : Option (Nat × Dict)
  data : Dict
  low_water_mark : Nat
deriving DecidableEq

/-- KeyValueStore.put: append a PUT record to the WAL, then update the map.
`ts` is the entry's wall-clock time, `rot` whether the write crossed the
segment-size threshold. -/
def store_put (st : StoreState) (k v : String) (ts : Nat) (rot : Bool) : StoreState :=
  { st with wal := wal_append st.wal OperationType.PUT k (some v) ts rot,
            data := dictSet st.data k (some v) }

/-- KeyValueStore.checkpoint: dump (wal.seq_num, data) to snapshot.json, close
the WAL, set low_water_mark to wal.seq_num, delete old segments when the
just-written snapshot is fresh (it always is, under the lock), create a new
WAL over the directory, and re-log every live key-value pair into it.  `ts` is
the wall-clock time stamped on the re-logged entries; the re-logged appends
use the default 10 MiB segment size and do not rotate. -/
def store_checkpoint (st : StoreState) (ts : Nat) : StoreState :=
  let snap := (st.wal.seq_num, st.data)
  let lwm := st.wal.seq_num
  let wal1 := if snap.1 == st.wal.seq_num then delete_old_segments st.wal lwm snap.1 else st.wal
  let wal2 := wal_reopen wal1.segments
  let wal3 := st.data.foldl
    (fun w kv => wal_append w OperationType.PUT kv.1 kv.2 ts false) wal2
  { wal := wal3, snapshot := some snap, data := st.data, low_water_mark := lwm }

/-- A KeyValueStore constructed over a fresh data directory: fresh WAL, no
snapshot, empty map. -/
def storeInit : StoreState :=
  { wal := walInit, snapshot := none, data := [], low_water_mark := 0 }

/-- KeyValueStore.__init__ over an existing directory: create the WAL; in
_load_snapshot, seed `data` from snapshot.json when present (the snapshot's
seq_num is assigned to wal.seq_num but immediately discarded when the WAL is
re-created from disk), re-create the WAL and replay every WAL entry; then
__init__ replays every WAL entry once more.  No entry is ever skipped by a
sequence-number comparison. -/
def store_construct (dirSegs : List Segment) (snapFile : Option (Nat × Dict)) :
    Except PyError StoreState := do
  let wal0 := wal_reopen dirSegs
  let data0 : Dict := match snapFile with
    | some sd => sd.2
    | none => []
  let wal1 := wal_reopen wal0.segments
  let es ← read_all_entries wal1.segments
  let data1 := recover_from_wal data0 es
  let es2 ← read_all_entries wal1.segments
  let data2 := recover_from_wal data1 es2
  Except.ok { wal := wal1, snapshot := snapFile, data := data2, low_water_mark := 0 }

/-- Append a PUT entry and rotate afterwards, as happens on every append when
the WAL is configured with a tiny segment_size (the repository's own test
fixture uses segment_size=10, which every record exceeds). -/
def appRot (w : WALState) (k : String) : WALState :=
  wal_append w OperationType.PUT k (some "v") 0 true

/-- Six appends with rotation after each: the directory ends up with segment
files 0.log, 2.log, 4.log, 6.log, 8.log, 10.log (and the empty 12.log),
holding the records with seq_num 1, 3, 5, 7, 9, 11 respectively. -/
def w6 : WALState :=
  appRot (appRot (appRot (appRot (appRot (appRot walInit "a") "b") "c") "d") "e") "f"

/-- Modelled from the spec: "parse sequence numbers from filenames; set
self.seq_num to the maximum found, or 0 if none" — the maximum over the parsed
*.log names, for comparison with what _init_from_disk actually computes. -/
def specMaxSeqFromDisk (listing : List String) : Nat :=
  ((listing.filter (fun f => strEndsWith f ".log")).filterMap
    (fun f => pyParseInt (splitHead f))).foldl max 0

/-- A fresh WAL after one append (no rotation): segment 0.log holds the record
with seq_num 1 and the WAL's seq_num is 1. -/
def w_a : WALState := wal_append walInit OperationType.PUT "a" (some "1") 0 false

/-- The largest record sequence number contained in a segment file. -/
def segMaxSeq (s : Segment) : Nat :=
  (s.recs.filterMap (fun r => r.payload.seq_num)).foldl max 0

/-- A one-file directory used to instantiate general deletion theorems. -/
def wSimple : WALState :=
  { segments := [{ name := 3, recs := [], tail := SegTail.clean }], seq_num := 0, current := 3 }

/-- A directory holding a single segment 0.log with one record, seq_num 1. -/
def cexDirC4 : List Segment :=
  [{ name := 0,
     recs := [CompressedLogEntry.serialize
       (mkLogEntry 1 OperationType.PUT "a" (some "1") 0) defaultConfig CompressionType.NONE],
     tail := SegTail.clean }]

/-- Modelled from the spec: "Replay wal.read_all(). For each entry: if
entry.seq_num ≤ snapshot.seq_num, skip (already reflected in the snapshot);
otherwise apply PUT or DELETE" — the replay loop the spec describes, for
comparison with _recover_from_wal. -/
def spec_recover (snapSeq : Nat) (d : Dict) (es : List LogEntry) : Dict :=
  es.foldl (fun acc e => if e.seq_num ≤ snapSeq then acc else apply_entry acc e) d

/-- The last WAL entry whose key is `k`, if any. -/
def last_op_on : List LogEntry → String → Option LogEntry
  | [], _ => none
  | e :: es, k =>
      match last_op_on es k with
      | some e2 => some e2
      | none => if e.key = k then some e else none

/-- Whether reading a file tail surfaces no exception: every tail except
leftover length-prefix bytes whose big-endian value is 0. -/
def tailSilent : SegTail → Bool
  | SegTail.tornLen bytes => decide (bytes = []) || !(decide (intFromBytesBE bytes = 0))
  | SegTail.clean => true
  | SegTail.tornBody _ _ => true

/-- A segment with its tail replaced by a clean end of file: the contents that
remain when the torn bytes are treated as if they had never been written. -/
def clearTail (s : Segment) : Segment := { s with tail := SegTail.clean }

/-- A serialized record with seq_num 1. -/
def serC6a : SerializedEntry :=
  CompressedLogEntry.serialize (mkLogEntry 1 OperationType.PUT "x" (some "1") 0)
    defaultConfig CompressionType.NONE

/-- A serialized record with seq_num 2. -/
def serC6b : SerializedEntry :=
  CompressedLogEntry.serialize (mkLogEntry 2 OperationType.PUT "y" (some "2") 0)
    defaultConfig CompressionType.NONE

/-- A directory whose FIRST (non-last) segment has a record torn in its body
(full length prefix announcing 8 bytes, 3 present) after one complete record,
followed by a second, intact segment. -/
def cexDirC6 : List Segment :=
  [{ name := 0, recs := [serC6a], tail := SegTail.tornBody 3 4 },
   { name := 1, recs := [serC6b], tail := SegTail.clean }]

/-- The S6 scenario, step 1: put("a","1") on a fresh store, at wall-clock 5. -/
def s1 : StoreState := store_put storeInit "a" "1" 5 false

/-- The S6 scenario, step 2: checkpoint(), re-logging at wall-clock 7. -/
def s2 : StoreState := store_checkpoint s1 7

/-- The S6 scenario, step 3: put("b","2"), at wall-clock 9. -/
def s3 : StoreState := store_put s2 "b" "2" 9 false

/-- An incoming record whose format_version is 99, with every required field
present and no stored checksum. -/
def d99 : EntryDict :=
  { seq_num := some 7, op_type := some 1, key := some "k", value := some "v",
    timestamp := some 3, format_version := some 99 }

/-- C1 (code bug): read_all_entries does NOT return a stream that ascends in
seq_num.  After six appends with rotation, the directory holds segments
0, 2, 4, 6, 8, 10 (records 1, 3, 5, 7, 9, 11); sorted() on the filename
STRINGS puts "10.log" right after "0.log", so the replay stream is
[1, 11, 3, 5, 7, 9], which is not strictly ascending. -/
theorem read_all_entries_out_of_order :
    (read_all_entries w6.segments).toOption.map (fun l => l.map (fun e => e.seq_num))
      = some [1, 11, 3, 5, 7, 9]
    ∧ ¬ List.Chain' (fun a b => a < b) [1, 11, 3, 5, 7, 9] := by
  refine ⟨by decide, ?_⟩
  simp [List.chain'_cons]

/-- C2 (code bug): on a directory containing 10.log and 2.log, _init_from_disk
sets seq_num to 2 (the integer parsed from the lexicographically last filename
"2.log") and not to the maximum 10 that the spec and the method's own
docstring ("the last used sequence number") call for; an empty directory does
give 0. -/
theorem init_seq_from_disk_not_max :
    init_seq_from_disk ["10.log", "2.log"] = 2
    ∧ specMaxSeqFromDisk ["10.log", "2.log"] = 10
    ∧ init_seq_from_disk [] = 0 := by
  exact ⟨by decide, by decide, by decide⟩

/-- C3 (counterexample): in the reachable state w_a the only segment file is
0.log, whose largest contained record seq_num is 1; the call
delete_old_segments(low_water_mark := 1, snapshot_seq_num := 1) — exactly the
call checkpoint makes after one put — is fresh and deletes that file even though
its largest seq_num 1 is ≥ low_water_mark 1. -/
theorem segment_with_max_seq_at_lwm_deleted :
    w_a.segments.map (fun s => (s.name, segMaxSeq s)) = [(0, 1)]
    ∧ w_a.seq_num = 1
    ∧ (delete_old_segments w_a 1 1).segments = [] := by
  exact ⟨by decide, by decide, by decide⟩

/-- C7 (counterexample): in the S6 scenario put("a","1"); checkpoint();
put("b","2"), a subsequent read_all does NOT return only the "b" record: the
checkpoint re-logged the live key "a" into the new WAL, so the stream holds
the keys ["a", "b"]. -/
theorem read_all_after_checkpoint_not_only_b :
    (read_all_entries s3.wal.segments).toOption.map (fun l => l.map (fun e => e.key))
      = some ["a", "b"]
    ∧ some ["a", "b"] ≠ some ["b"] := by
  exact ⟨by decide, by decide⟩

/-- C7 (amended): in the S6 scenario the snapshot file holds the
checkpoint-time sequence number 1 and the data of "a"; the pre-checkpoint
segment is deleted (no record stamped with the pre-checkpoint time 5
survives); but read_all over the surviving directory returns TWO records: the
re-logged PUT "a" (seq_num 1, stamped with the checkpoint time 7) followed by
the record for "b" (seq_num 2), because checkpoint re-logs every live pair
into the new WAL. -/
theorem checkpoint_scenario_stream :
    s2.snapshot = some (1, [("a", some "1")])
    ∧ s3.wal.segments.map (fun s => s.name) = [0]
    ∧ (read_all_entries s3.wal.segments).toOption.map
        (fun l => l.map (fun e => (e.seq_num, e.key, e.value, e.timestamp)))
      = some [(1, "a", some "1", 7), (2, "b", some "2", 9)] := by
  exact ⟨by decide, by decide, by decide⟩

/-- C4 (counterexample): constructing a store over a snapshot with seq_num 5
and a WAL whose only entry has seq_num 1 ≤ 5 still applies that entry — the
resulting map binds "a", whereas the skip rule the claim states would leave
the snapshot data (empty) unchanged, as spec_recover shows. -/
theorem entry_below_snapshot_seq_applied :
    (store_construct cexDirC4 (some (5, []))).toOption.map (fun st => st.data)
      = some [("a", some "1")]
    ∧ spec_recover 5 [] [mkLogEntry 1 OperationType.PUT "a" (some "1") 0] = [] := by
  exact ⟨by decide, by decide⟩

/-- C6 (counterexample): a record torn in its BODY in the FIRST of two
segments is not surfaced as an error: read_all_entries succeeds and returns
the complete record of the torn segment followed by the record of the later
segment, instead of the fatal corruption error the claim requires. -/
theorem torn_record_in_earlier_segment_not_an_error :
    read_all_entries cexDirC6
      = Except.ok [mkLogEntry 1 OperationType.PUT "x" (some "1") 0,
                   mkLogEntry 2 OperationType.PUT "y" (some "2") 0] := by
  decide

/-- C9 (counterexample): a record whose format_version is 99 — not a known
version — is accepted by decode: deserialize returns an entry carrying
format_version 99 instead of rejecting the record. -/
theorem unknown_format_version_accepted :
    (CompressedLogEntry.deserialize { ct_byte := 0, payload := d99 }).toOption.map
        (fun e => e.format_version) = some 99 := by
  decide

/-- C10: replaying a DELETE entry whose key is absent from the map leaves the
map unchanged (the `entry.key in self.data` guard makes the branch a no-op, so
no KeyError can be raised and store construction cannot fail on a dangling
DELETE record). -/
theorem delete_absent_key_noop (d : Dict) (e : LogEntry)
    (h1 : e.op_type = OperationType.DELETE) (h2 : dictHas d e.key = false) :
    apply_entry d e = d := by
  unfold apply_entry
  rw [h1, h2]
  simp

/-- C10 (witness): a DELETE of the absent key "z" on a one-key map is a no-op. -/
theorem delete_absent_key_noop_witness :
    apply_entry [("a", some "1")] (mkLogEntry 4 OperationType.DELETE "z" none 0)
      = [("a", some "1")] :=
  delete_absent_key_noop [("a", some "1")] (mkLogEntry 4 OperationType.DELETE "z" none 0)
    (by decide) (by decide)

theorem mem_insertSeg {x s : Segment} {l : List Segment} :
    x ∈ insertSeg s l ↔ x = s ∨ x ∈ l := by
  induction l with
  | nil => simp [insertSeg]
  | cons t ts ih =>
      unfold insertSeg
      by_cases h : pyStrLe (filename s.name) (filename t.name) = true
      · simp [h, List.mem_cons]
      · simp [h, List.mem_cons, ih]
        tauto

theorem mem_pysortSegs {x : Segment} {l : List Segment} : x ∈ pysortSegs l ↔ x ∈ l := by
  induction l with
  | nil => simp [pysortSegs]
  | cons s ss ih => simp [pysortSegs, mem_insertSeg, ih, List.mem_cons]

theorem deleteLoop_eq_filter (lwm : Nat) :
    ∀ (files dir : List Segment),
      deleteLoop lwm dir files
        = dir.filter (fun t => !(files.any (fun s => decide (s.name < lwm) && s.name == t.name)))
  | [], dir => by simp [deleteLoop]
  | s :: files, dir => by
      unfold deleteLoop
      by_cases h : s.name < lwm
      · rw [if_pos h, deleteLoop_eq_filter lwm files, List.filter_filter]
        refine List.filter_congr (fun t ht => ?_)
        by_cases he : t.name = s.name <;> simp [he, h]
        exact fun _ h2 => he h2.symm
      · rw [if_neg h, deleteLoop_eq_filter lwm files]
        refine List.filter_congr (fun t ht => ?_)
        simp [h]

theorem delete_old_segments_segments (w : WALState) (lwm snap : Nat) (h : snap = w.seq_num) :
    (delete_old_segments w lwm snap).segments
      = w.segments.filter (fun s => decide (lwm ≤ s.name)) := by
  unfold delete_old_segments is_snapshot_fresh
  rw [if_pos (by simp [h])]
  simp only
  rw [deleteLoop_eq_filter]
  refine List.filter_congr (fun t ht => ?_)
  by_cases hl : t.name < lwm
  · have hmem : t ∈ pysortSegs w.segments := mem_pysortSegs.2 ht
    have hany : (pysortSegs w.segments).any
        (fun s => decide (s.name < lwm) && s.name == t.name) = true :=
      List.any_eq_true.2 ⟨t, hmem, by simp [hl]⟩
    simp [hany, Nat.not_le.2 hl]
  · have hany : (pysortSegs w.segments).any
        (fun s => decide (s.name < lwm) && s.name == t.name) = false := by
      rw [List.any_eq_false]
      intro s hsmem
      by_cases he : s.name = t.name
      · simp [he, hl]
      · simp [he]
    simp [hany, Nat.le_of_not_lt hl]

theorem delete_old_segments_not_fresh (w : WALState) (lwm snap : Nat) (h : snap ≠ w.seq_num) :
    delete_old_segments w lwm snap = w := by
  unfold delete_old_segments is_snapshot_fresh
  rw [if_neg (by simp [h])]

/-- C5: delete_old_segments with a fresh snapshot (snapshot_seq_num equal to
the WAL's seq_num) deletes exactly the segment files whose filename sequence
number is below low_water_mark — the directory afterwards is the original
filtered to the files with name ≥ low_water_mark, so no other file is deleted
— and with a stale snapshot it returns with the WAL unchanged. -/
theorem delete_old_segments_spec (w : WALState) (lwm snap : Nat) :
    (snap = w.seq_num →
      (delete_old_segments w lwm snap).segments
        = w.segments.filter (fun s => decide (lwm ≤ s.name)))
    ∧ (snap ≠ w.seq_num → delete_old_segments w lwm snap = w) :=
  ⟨fun h => delete_old_segments_segments w lwm snap h,
   fun h => delete_old_segments_not_fresh w lwm snap h⟩

/-- C5 (witness): on the one-put WAL w_a (seq_num 1), the fresh call deletes
exactly the files named below 1, and the stale call (snapshot seq 2 ≠ 1)
changes nothing. -/
theorem delete_old_segments_spec_witness :
    (delete_old_segments w_a 1 1).segments
        = w_a.segments.filter (fun s => decide (1 ≤ s.name))
    ∧ delete_old_segments w_a 1 2 = w_a :=
  ⟨(delete_old_segments_spec w_a 1 1).1 (by decide),
   (delete_old_segments_spec w_a 1 2).2 (by decide)⟩

/-- C3 (amended): a segment file whose FILENAME sequence number is at least
low_water_mark is never deleted by delete_old_segments, in any state and for
any snapshot_seq_num (the file named n can, however, contain records with
seq_num > n up to and beyond low_water_mark, which is what the original claim
overlooked). -/
theorem segment_named_ge_lwm_never_deleted (w : WALState) (lwm snap : Nat) (s : Segment)
    (hs : s ∈ w.segments) (h : lwm ≤ s.name) :
    s ∈ (delete_old_segments w lwm snap).segments := by
  by_cases hf : snap = w.seq_num
  · rw [delete_old_segments_segments w lwm snap hf]
    exact List.mem_filter.2 ⟨hs, by simp [h]⟩
  · rw [delete_old_segments_not_fresh w lwm snap hf]
    exact hs

/-- C3 (amended, witness): the file 3.log survives a fresh deletion with
low_water_mark 2. -/
theorem segment_named_ge_lwm_never_deleted_witness :
    ({ name := 3, recs := [], tail := SegTail.clean } : Segment)
      ∈ (delete_old_segments wSimple 2 0).segments :=
  segment_named_ge_lwm_never_deleted wSimple 2 0
    { name := 3, recs := [], tail := SegTail.clean } (by decide) (by decide)

/-- C8: encode followed by decode restores every constructed entry exactly —
same seq_num, op_type, key, value, timestamp and checksum (and format_version)
— and the recomputed checksum verifies (deserialize returns ok rather than the
checksum ValueError), for NONE and for ZLIB compression configs alike, and
whatever compression_type attribute the entry carried when it was serialized. -/
theorem serialize_deserialize_roundtrip (seq : Nat) (op : OperationType) (key : String)
    (value : Option String) (ts : Nat) (cfg : CompressionConfig) (current_ct : CompressionType) :
    CompressedLogEntry.deserialize
        (CompressedLogEntry.serialize (mkLogEntry seq op key value ts) cfg current_ct)
      = Except.ok (mkLogEntry seq op key value ts)
    ∧ (mkLogEntry seq op key value ts).checksum
        = calculate_checksum seq op key value ts := by
  obtain ⟨ctype, lvl⟩ := cfg
  refine ⟨?_, rfl⟩
  cases ctype <;> cases op <;>
    simp [CompressedLogEntry.serialize, CompressedLogEntry.deserialize,
          CompressedLogEntry.from_dict, CompressedLogEntry.to_dict,
          CompressionManager.compress, CompressionManager.decompress,
          CompressionType.value, CompressionType.ofValue,
          LogEntry.from_dict, LogEntry.to_dict, mkLogEntry,
          OperationType.value, OperationType.ofValue, Bind.bind, Except.bind]

/-- C9 (amended): from_dict imposes no format_version check — any carried
version is stored as-is and an absent one defaults to 1; a record missing the
required seq_num field fails with KeyError (the code has no FormatError); an
op_type value outside the enum (such as 0) fails with ValueError; a missing
checksum defaults to the recomputed checksum. -/
theorem from_dict_accepts_any_version (sq : Nat) (op : OperationType) (k : String)
    (v : Option String) (ts : Nat) (cs : Option Nat) (fv : Option Nat) (ct : Option Nat) :
    LogEntry.from_dict
        { seq_num := some sq, op_type := some op.value, key := some k, value := v,
          timestamp := some ts, checksum := cs, format_version := fv,
          compression_type := ct }
      = Except.ok { seq_num := sq, op_type := op, key := k, value := v, timestamp := ts,
                    checksum := cs.getD (calculate_checksum sq op k v ts),
                    format_version := fv.getD 1 }
    ∧ LogEntry.from_dict
        { seq_num := none, op_type := some op.value, key := some k, value := v,
          timestamp := some ts, checksum := cs, format_version := fv }
      = Except.error (PyError.keyError "seq_num")
    ∧ LogEntry.from_dict
        { seq_num := some sq, op_type := some 0, key := some k, value := v,
          timestamp := some ts, checksum := cs, format_version := fv }
      = Except.error (PyError.valueError "op_type") := by
  refine ⟨?_, ?_, ?_⟩ <;> cases op <;>
    simp [LogEntry.from_dict, OperationType.value, OperationType.ofValue,
          Bind.bind, Except.bind]

theorem readTail_silent (t : SegTail) (h : tailSilent t = true) :
    readTail t = Except.ok () := by
  cases t with
  | clean => rfl
  | tornBody p e => rfl
  | tornLen bytes =>
      by_cases hb : bytes = []
      · simp [readTail, hb]
      · have hnz : ¬ intFromBytesBE bytes = 0 := by
          simpa [tailSilent, hb] using h
        simp [readTail, hb, hnz]

theorem readSegmentFile_clearTail (s : Segment) (h : tailSilent s.tail = true) :
    readSegmentFile (clearTail s) = readSegmentFile s := by
  show (do let es ← decodeList s.recs
           let _ ← readTail SegTail.clean
           Except.ok es)
     = (do let es ← decodeList s.recs
           let _ ← readTail s.tail
           Except.ok es)
  rw [readTail_silent s.tail h]
  rfl

theorem insertSeg_clearTail (s : Segment) (l : List Segment) :
    insertSeg (clearTail s) (l.map clearTail) = (insertSeg s l).map clearTail := by
  have hn : ∀ x : Segment, (clearTail x).name = x.name := fun x => rfl
  induction l with
  | nil => rfl
  | cons t ts ih =>
      simp only [List.map_cons, insertSeg, hn]
      by_cases h : pyStrLe (filename s.name) (filename t.name) = true
      · simp [h]
      · simp [h, ih]

theorem pysortSegs_clearTail (l : List Segment) :
    pysortSegs (l.map clearTail) = (pysortSegs l).map clearTail := by
  induction l with
  | nil => rfl
  | cons s ss ih => simp only [List.map_cons, pysortSegs, ih, insertSeg_clearTail]

theorem readFiles_clearTail (l : List Segment) (h : ∀ s ∈ l, tailSilent s.tail = true) :
    readFiles (l.map clearTail) = readFiles l := by
  induction l with
  | nil => rfl
  | cons s rest ih =>
      simp only [List.map_cons, readFiles]
      rw [readSegmentFile_clearTail s (h s (List.mem_cons_self s rest)),
          ih (fun t ht => h t (List.mem_cons_of_mem s ht))]

/-- C6 (amended): whether a torn record is tolerated does not depend on which
segment holds it but on where the cut falls.  A record cut in its BODY — or a
cleanly ended file — is tolerated silently in every position: over any
directory whose tails are silent (clean, cut in the body, or leftover prefix
bytes of non-zero value), read_all_entries returns exactly what it returns
with every tail removed, with the following segments still read and no error.
A record cut inside its 4-byte LENGTH PREFIX whose leftover bytes parse as 0
— the common case, record lengths being far below 2^24 — makes the reader
pass a zero-length read to deserialize, which raises IndexError and aborts
the whole read, in an earlier segment and equally in the final one (so the
final-segment tolerance the claim states also fails there). -/
theorem read_all_entries_torn_behavior :
    (∀ segs : List Segment, (∀ s ∈ segs, tailSilent s.tail = true) →
        read_all_entries (segs.map clearTail) = read_all_entries segs)
    ∧ read_all_entries
        [{ name := 0, recs := [serC6a], tail := SegTail.tornLen [0, 0] },
         { name := 5, recs := [serC6b], tail := SegTail.clean }]
        = Except.error (PyError.indexError "index out of range")
    ∧ read_all_entries
        [{ name := 0, recs := [serC6a], tail := SegTail.clean },
         { name := 5, recs := [serC6b], tail := SegTail.tornLen [0, 0] }]
        = Except.error (PyError.indexError "index out of range") := by
  refine ⟨?_, by decide, by decide⟩
  intro segs h
  unfold read_all_entries
  rw [pysortSegs_clearTail]
  exact readFiles_clearTail (pysortSegs segs) (fun s hs => h s (mem_pysortSegs.1 hs))

/-- C6 (amended, witness): a single segment whose record is torn in the body
(prefix announcing 8 bytes, 3 present) reads exactly as the clean file. -/
theorem read_all_entries_torn_behavior_witness :
    read_all_entries
        ([{ name := 0, recs := [serC6a], tail := SegTail.tornBody 3 4 }].map clearTail)
      = read_all_entries [{ name := 0, recs := [serC6a], tail := SegTail.tornBody 3 4 }] :=
  read_all_entries_torn_behavior.1
    [{ name := 0, recs := [serC6a], tail := SegTail.tornBody 3 4 }] (by decide)

theorem dictGet_eq_none_of_not_has (d : Dict) (k : String) (h : dictHas d k = false) :
    dictGet d k = none := by
  induction d with
  | nil => rfl
  | cons p rest ih =>
      have h1 : ¬ p.1 = k ∧ dictHas rest k = false := by
        simpa [dictHas, List.any_cons] using h
      simp [dictGet, h1.1, ih h1.2]

theorem dictGet_map_set_ne (d : Dict) (k : String) (v : Option String) (k2 : String)
    (h : k ≠ k2) :
    dictGet (d.map (fun p => if p.1 = k then (k, v) else p)) k2 = dictGet d k2 := by
  induction d with
  | nil => rfl
  | cons p rest ih =>
      by_cases hp : p.1 = k
      · have hne : ¬ p.1 = k2 := fun hq => h (hp.symm.trans hq)
        simp [dictGet, hp, h, hne, ih]
      · simp [dictGet, hp, ih]

theorem dictGet_map_set_self (d : Dict) (k : String) (v : Option String)
    (h : dictHas d k = true) :
    dictGet (d.map (fun p => if p.1 = k then (k, v) else p)) k = some v := by
  induction d with
  | nil => simp [dictHas] at h
  | cons p rest ih =>
      by_cases hp : p.1 = k
      · simp [dictGet, hp]
      · have h2 : dictHas rest k = true := by
          simpa [dictHas, List.any_cons, hp] using h
        simp [dictGet, hp, ih h2]

theorem dictGet_append_new (d : Dict) (k : String) (v : Option String) (k2 : String) :
    dictGet (d ++ [(k, v)]) k2
      = match dictGet d k2 with
        | some w => some w
        | none => if k = k2 then some v else none := by
  induction d with
  | nil => simp [dictGet]
  | cons p rest ih => by_cases hp : p.1 = k2 <;> simp [dictGet, hp, ih]

theorem dictGet_dictSet (d : Dict) (k : String) (v : Option String) (k2 : String) :
    dictGet (dictSet d k v) k2 = if k = k2 then some v else dictGet d k2 := by
  unfold dictSet
  by_cases hh : d.any (fun p => decide (p.1 = k)) = true
  · rw [if_pos hh]
    by_cases he : k = k2
    · subst he
      rw [if_pos rfl, dictGet_map_set_self d k v hh]
    · rw [if_neg he, dictGet_map_set_ne d k v k2 he]
  · rw [if_neg hh, dictGet_append_new]
    have hb : dictHas d k = false := by
      cases hhb : d.any (fun p => decide (p.1 = k)) with
      | false => exact hhb
      | true => exact absurd hhb hh
    by_cases he : k = k2
    · subst he
      have hn : dictGet d k = none := dictGet_eq_none_of_not_has d k hb
      simp [hn]
    · cases hg : dictGet d k2 <;> simp [he, hg]

theorem dictGet_dictDel (d : Dict) (k k2 : String) :
    dictGet (dictDel d k) k2 = if k = k2 then none else dictGet d k2 := by
  induction d with
  | nil => simp [dictDel, dictGet]
  | cons p rest ih =>
      by_cases hp : p.1 = k
      · have h1 : dictDel (p :: rest) k = dictDel rest k := by
          simp [dictDel, List.filter_cons, hp]
        rw [h1, ih]
        by_cases he : k = k2
        · simp [he]
        · have hne : ¬ p.1 = k2 := fun hq => he (hp.symm.trans hq)
          simp [he, dictGet, hne]
      · have h1 : dictDel (p :: rest) k = p :: dictDel rest k := by
          simp [dictDel, List.filter_cons, hp]
        rw [h1]
        by_cases hq : p.1 = k2
        · have hne : ¬ k = k2 := fun hk => hp (hq.trans hk.symm)
          simp [dictGet, hq, hne]
        · simp [dictGet, hq, ih]

theorem dictGet_apply_entry (d : Dict) (e : LogEntry) (k : String) :
    dictGet (apply_entry d e) k
      = if e.key = k then
          (match e.op_type with
           | OperationType.PUT => some e.value
           | OperationType.DELETE => none)
        else dictGet d k := by
  obtain ⟨sq, opt, ek, ev, ts, cs, fv⟩ := e
  cases opt with
  | PUT => simp [apply_entry, dictGet_dictSet]
  | DELETE =>
      simp only [apply_entry]
      by_cases hh : dictHas d ek = true
      · simp [hh, dictGet_dictDel]
      · have hb : dictHas d ek = false := by
          cases hhb : dictHas d ek with
          | false => rfl
          | true => exact absurd hhb hh
        have hn := dictGet_eq_none_of_not_has d ek hb
        by_cases he : ek = k
        · subst he
          simp [hb, hn]
        · simp [hb, he]

theorem dictGet_recover (es : List LogEntry) (d : Dict) (k : String) :
    dictGet (recover_from_wal d es) k
      = match last_op_on es k with
        | some e =>
            (match e.op_type with
             | OperationType.PUT => some e.value
             | OperationType.DELETE => none)
        | none => dictGet d k := by
  induction es generalizing d with
  | nil => rfl
  | cons e rest ih =>
      show dictGet (recover_from_wal (apply_entry d e) rest) k = _
      rw [ih (apply_entry d e)]
      show _ = (match (match last_op_on rest k with
                       | some e2 => some e2
                       | none => if e.key = k then some e else none) with
                | some e2 =>
                    (match e2.op_type with
                     | OperationType.PUT => some e2.value
                     | OperationType.DELETE => none)
                | none => dictGet d k)
      cases hl : last_op_on rest k with
      | some e2 => simp
      | none =>
          rw [dictGet_apply_entry]
          by_cases he : e.key = k <;> simp [he]

/-- C4 (amended): store construction never skips a replayed entry: every WAL
entry is applied as a PUT or a DELETE regardless of how its seq_num compares
to the snapshot's (the replay even runs twice), so the constructed map binds
each key to the value of the LAST WAL entry for that key (PUT gives its value,
DELETE unbinds it) and falls back to the snapshot data only for keys that no
WAL entry mentions. -/
theorem store_construct_lookup (dirSegs : List Segment) (snapFile : Option (Nat × Dict))
    (es : List LogEntry) (k : String)
    (h : read_all_entries (wal_reopen (wal_reopen dirSegs).segments).segments
           = Except.ok es) :
    (store_construct dirSegs snapFile).map (fun st => dictGet st.data k)
      = Except.ok
          (match last_op_on es k with
           | some e =>
               (match e.op_type with
                | OperationType.PUT => some e.value
                | OperationType.DELETE => none)
           | none =>
               dictGet (match snapFile with | some sd => sd.2 | none => []) k) := by
  unfold store_construct
  simp only [h, Bind.bind, Except.bind, Except.map]
  rw [dictGet_recover, dictGet_recover]
  cases hl : last_op_on es k with
  | some e => simp [hl]
  | none => simp [hl]

/-- C4 (amended, witness): over a directory whose single entry is
PUT "a" "1" (seq_num 1) and a snapshot with seq_num 5 and empty data, the
constructed map binds "a" to "1" — the last (and only) WAL entry for "a". -/
theorem store_construct_lookup_witness :
    (store_construct cexDirC4 (some (5, []))).map (fun st => dictGet st.data "a")
      = Except.ok (some (some "1")) := by
  have h := store_construct_lookup cexDirC4 (some (5, []))
      [mkLogEntry 1 OperationType.PUT "a" (some "1") 0] "a" (by decide)
  simpa [last_op_on, mkLogEntry] using h

end PyWal
